import Mathlib

/-!
Verification development for the bitradix repository (radix64.go and the
queue file).  The Go code is shallowly embedded: the node struct becomes an
inductive tree, in-place mutation becomes explicit state passing, uint64
becomes Nat with explicit masking, Go int becomes Int, and the two panic
sites become explicit result constructors.  The Go parent pointer is used
by the source only to test "am I the root" and to walk upward during
pruning; the upward walk is replayed on the way out of the recursive
descent, and the parent-is-nil test is kept as a boolean field pnil on
every node (New64 creates the root children with a nil parent while new()
sets the parent, so the field is genuinely per node).
-/

namespace Bitradix

/-- Modelled from the spec: the constant bitSize32 is declared in the
missing 32-bit instantiation file of this repository; per the spec the
design is parameterized by a key width W in {32, 64} and this constant is
the width of the 32-bit instantiation, so its value is 32.  radix64.go
refers to it directly. -/
def bitSize32 : Int := 32

/-- Modelled from the spec: the constant mask64 is declared outside
src/; it is the all-ones mask for 64-bit keys (keys are masked to their
most-significant bits), so its value is 2^64 - 1. -/
def mask64 : Nat := 2 ^ 64 - 1

/-- Go conversion uint(b) of an int b: reinterpret modulo 2^64. -/
def goUintOfInt (b : Int) : Nat := (b % ((2 : Int) ^ 64)).toNat

/-- Go expression uint64(mask64 << (bitSize32 - uint(r.bits))), as written
at radix64.go lines 167, 246 and 270.  A Go shift by a count of at least
the width yields 0. -/
def maskOf (bits : Int) : Nat :=
  let s : Int := (bitSize32 - (goUintOfInt bits : Int)) % ((2 : Int) ^ 64)
  if s < 64 then (mask64 <<< s.toNat) % 2 ^ 64 else 0

/-- Go bitK64(n, k) = byte((n & (1 << uint(k))) >> uint(k)); for k outside
[0, 64) both shifts are over-shifts and the result is 0. -/
def bitK64 (n : Nat) (k : Int) : Nat :=
  if 0 ≤ k ∧ k < 64 then (n.land (1 <<< k.toNat)) >>> k.toNat else 0

/-- The Radix64 node: two optional children, the parent-is-nil flag
(true when the Go parent pointer is nil), the stored key, the significant
bit count, and the stored value. -/
inductive Radix64 (T : Type) : Type where
  | mk (b0 b1 : Option (Radix64 T)) (pnil : Bool) (key : Nat) (bits : Int)
      (value : T)

namespace Radix64

variable {T : Type}

def b0 : Radix64 T → Option (Radix64 T)
  | .mk a _ _ _ _ _ => a

def b1 : Radix64 T → Option (Radix64 T)
  | .mk _ a _ _ _ _ => a

def pnil : Radix64 T → Bool
  | .mk _ _ p _ _ _ => p

def key : Radix64 T → Nat
  | .mk _ _ _ k _ _ => k

def bits : Radix64 T → Int
  | .mk _ _ _ _ b _ => b

def value : Radix64 T → T
  | .mk _ _ _ _ _ v => v

/-- Go branch[i] for i in {0, 1}. -/
def branch : Radix64 T → Nat → Option (Radix64 T)
  | .mk a b _ _ _ _, i => if i = 0 then a else b

/-- Assignment r.branch[i] = c. -/
def setBranch : Radix64 T → Nat → Option (Radix64 T) → Radix64 T
  | .mk a b p k bi v, i, c =>
    if i = 0 then .mk c b p k bi v else .mk a c p k bi v

/-- Go Leaf(): both branches nil. -/
def Leaf (r : Radix64 T) : Bool := r.b0.isNone && r.b1.isNone

/-- Go set(key, bits, value): overwrite the entry fields in place. -/
def set : Radix64 T → Nat → Int → T → Radix64 T
  | .mk a b p _ _ _, k, bi, v => .mk a b p k bi v

/-- Go clear(): zero the entry fields; branches are kept.  The Go zero
value of T is modelled by the Inhabited default. -/
def clear [Inhabited T] : Radix64 T → Radix64 T
  | .mk a b p _ _ _ => .mk a b p 0 0 default

/-- Go r.new(): a fresh vacant leaf whose parent pointer is r (hence
non-nil, pnil = false). -/
def new [Inhabited T] (_ : Radix64 T) : Radix64 T := .mk none none false 0 0 default

end Radix64

/-- Go New64: a root (nil parent) with two pre-materialized vacant leaf
children.  The children are built by a struct literal whose parent field
is nil, not by new(), so their pnil flag is true. -/
def New64 (T : Type) [Inhabited T] : Radix64 T :=
  .mk (some (.mk none none true 0 0 default))
    (some (.mk none none true 0 0 default)) true 0 0 default

/-- Result of the recursive insert: ok carries the updated (sub)tree and
a copy of the node the Go function returns; invalidBit models the
"bitradix: bit index smaller than zero" panic and carries the (sub)tree
as mutated up to the moment of the panic (Go mutates in place, so partial
mutations survive a panic); notRoot models the "bitradix: not the root
node" panic of the exported wrappers; nofuel is the modelling artifact of
the fuel parameter and corresponds to no Go behaviour. -/
inductive InsertResult (T : Type) : Type where
  | ok (tree ret : Radix64 T)
  | invalidBit (tree : Radix64 T)
  | notRoot
  | nofuel

namespace Radix64

variable {T : Type}

/-- Go (r *Radix64[T]).insert(n, bits, v, bit), radix64.go lines 94-162,
translated branch for branch.  Mutation becomes rebuilding: each
recursive call returns the updated child, which is reattached with
setBranch; the Go statement "if r.branch[x] == nil { r.branch[x] =
r.new() }" becomes getD with a fresh new node followed by reattachment. -/
def insert [Inhabited T] : Nat → Radix64 T → Nat → Int → T → Int → InsertResult T
  | 0, _, _, _, _, _ => .nofuel
  | fuel + 1, r, n, bits, v, bit =>
    match r.Leaf with
    | false =>
      -- Non-leaf node, one or two branches, possibly a key
      if bit < 0 then .invalidBit r
      else
        let bnew := bitK64 n bit
        if r.bits = 0 ∧ bits = bitSize32 - bit then
          -- I should be put here
          let r1 := r.set n bits v
          .ok r1 r1
        else if r.bits > 0 ∧ bits = bitSize32 - bit ∧ r.bits > bits then
          let bcur := bitK64 r.key bit
          let b1 := r.bits
          let n1 := r.key
          let v1 := r.value
          let r1 := r.set n bits v
          let c := (r1.branch bcur).getD r1.new
          let r2 := r1.setBranch bcur (some c)
          match insert fuel c n1 b1 v1 (bit - 1) with
          | .ok c1 _ =>
            let r3 := r2.setBranch bcur (some c1)
            .ok r3 r3
          | .invalidBit c1 => .invalidBit (r2.setBranch bcur (some c1))
          | e => e
        else
          let c := (r.branch bnew).getD r.new
          let r1 := r.setBranch bnew (some c)
          match insert fuel c n bits v (bit - 1) with
          | .ok c1 ret => .ok (r1.setBranch bnew (some c1)) ret
          | .invalidBit c1 => .invalidBit (r1.setBranch bnew (some c1))
          | e => e
    | true =>
      -- External node, (optional) key, no branches
      if r.bits = 0 ∨ r.key = n then
        -- nothing here yet, put something in, or equal keys
        let r1 := r.set n bits v
        .ok r1 r1
      else if bit < 0 then .invalidBit r
      else
        let bcur := bitK64 r.key bit
        let bnew := bitK64 n bit
        if bcur = bnew then
          let c0 : Radix64 T := r.new
          let r1 := r.setBranch bcur (some c0)
          if r1.bits > 0 ∧ (bits = bitSize32 - bit ∨ bits < r1.bits) then
            let b1 := r1.bits
            let n1 := r1.key
            let v1 := r1.value
            let r2 := r1.set n bits v
            match insert fuel c0 n1 b1 v1 (bit - 1) with
            | .ok c1 _ =>
              let r3 := r2.setBranch bnew (some c1)
              .ok r3 r3
            | .invalidBit c1 => .invalidBit (r2.setBranch bnew (some c1))
            | e => e
          else if r1.bits > 0 ∧ bits ≥ r1.bits then
            -- current key can not be put further down, leave it but continue
            match insert fuel c0 n bits v (bit - 1) with
            | .ok c1 ret => .ok (r1.setBranch bnew (some c1)) ret
            | .invalidBit c1 => .invalidBit (r1.setBranch bnew (some c1))
            | e => e
          else
            -- fill this node, with the current key - and call ourselves
            let c1 := c0.set r1.key r1.bits r1.value
            let r2 := (r1.setBranch bcur (some c1)).clear
            match insert fuel c1 n bits v (bit - 1) with
            | .ok c2 ret => .ok (r2.setBranch bnew (some c2)) ret
            | .invalidBit c2 => .invalidBit (r2.setBranch bnew (some c2))
            | e => e
        else
          -- not equal, keep current node, and branch off in child
          let c0 := (r.new).set r.key r.bits r.value
          let r1 := (r.setBranch bcur (some c0)).clear
          let c2 : Radix64 T := r1.new
          let r2 := r1.setBranch bnew (some c2)
          match insert fuel c2 n bits v (bit - 1) with
          | .ok c3 ret => .ok (r2.setBranch bnew (some c3)) ret
          | .invalidBit c3 => .invalidBit (r2.setBranch bnew (some c3))
          | e => e

/-- Go (r *Radix64[T]).Insert(n, bits, v), radix64.go lines 51-57: the
not-root check (r.parent != nil) followed by the descent from bit
bitSize32 - 1. -/
def Insert [Inhabited T] (fuel : Nat) (r : Radix64 T) (n : Nat) (bits : Int)
    (v : T) : InsertResult T :=
  if r.pnil = false then .notRoot
  else insert fuel r n bits v (bitSize32 - 1)

/-- Go (r *Radix64[_]).prune(false), radix64.go lines 206-239, as one
upward step: given the node whose child slot was just updated, return the
node after a possible collapse together with the flag "the walk continues
to my parent".  The walk continues (line 239 r.parent.prune(false))
exactly when no early return fired and r actually has a parent; a nil
parent receiver returns immediately at line 206-208. -/
def prune [Inhabited T] (r : Radix64 T) : Radix64 T × Bool :=
  if r.bits ≠ 0 then (r, false)
  else
    match r.b0, r.b1 with
    | some _, some _ =>
      -- two branches, we cannot replace ourselves with a child
      (r, false)
    | some b, none =>
      if b.Leaf = false then (r, false)
      else (Radix64.mk b.b0 b.b1 r.pnil b.key b.bits b.value, !r.pnil)
    | none, some b =>
      if b.Leaf = false then (r, false)
      else (Radix64.mk b.b0 b.b1 r.pnil b.key b.bits b.value, !r.pnil)
    | none, none => (r, !r.pnil)

/-- Go (r *Radix64[T]).remove(n, bits, bit), radix64.go lines 164-187,
together with prune(true), lines 189-204.  The result triple is (copy
returned on a hit, replacement for this node where none means this node
was detached from its parent, prune walk still active).  A hit at a node
whose parent pointer is nil (prune(true) lines 190-194) clears the node
in place and does not walk; a hit elsewhere detaches the node, and each
caller on the way out replays prune(false) on itself while the walk is
active.  The outer Option is fuel exhaustion only. -/
def remove [Inhabited T] :
    Nat → Radix64 T → Nat → Int → Int →
      Option (Option (Radix64 T) × Option (Radix64 T) × Bool)
  | 0, _, _, _, _ => none
  | fuel + 1, r, n, bits, bit =>
    if r.bits > 0 ∧ r.bits = bits ∧
        r.key.land (maskOf r.bits) = n.land (maskOf r.bits) then
      -- possible hit: save r in r1 (a copy with nil branches and parent)
      let r1 : Radix64 T := .mk none none true r.key r.bits r.value
      if r.pnil then some (some r1, some r.clear, false)
      else some (some r1, none, true)
    else
      let k := bitK64 n bit
      if r.Leaf = true ∨ (r.branch k).isNone then
        -- dead end
        some (none, some r, false)
      else
        match r.branch k with
        | none => some (none, some r, false)
        | some c =>
          match remove fuel c n bits (bit - 1) with
          | none => none
          | some (e, copt, act) =>
            let r1 := r.setBranch k copt
            if act then
              let pr := prune r1
              some (e, some pr.1, pr.2)
            else some (e, some r1, false)

/-- Result of the exported Remove: ok carries the copy of the removed
node (or none) and the tree after removal and pruning; notRoot models the
not-root panic; nofuel is the fuel artifact. -/
inductive RemoveResult (T : Type) : Type where
  | ok (removed : Option (Radix64 T)) (tree : Radix64 T)
  | notRoot
  | nofuel

/-- Go (r *Radix64[T]).Remove(n, bits), radix64.go lines 59-65.  At the
top level the replacement is always present (a hit at the root handle has
pnil = true and clears in place), so getD never takes its default. -/
def Remove [Inhabited T] (fuel : Nat) (r : Radix64 T) (n : Nat) (bits : Int) :
    RemoveResult T :=
  if r.pnil = false then .notRoot
  else
    match remove fuel r n bits (bitSize32 - 1) with
    | none => .nofuel
    | some (e, copt, _) => .ok e (copt.getD r)

/-- Go (r *Radix64[T]).find(n, bits, bit, last), radix64.go lines
242-277, translated branch for branch.  The outer Option is fuel
exhaustion only; the inner Option is the Go nil result. -/
def find : Nat → Radix64 T → Nat → Int → Int → Option (Radix64 T) →
    Option (Option (Radix64 T))
  | 0, _, _, _, _, _ => none
  | fuel + 1, r, n, bits, bit, last =>
    match r.Leaf with
    | false =>
      -- A prefix that is matching (BETTER MATCHING)
      let mask := maskOf r.bits
      let last1 :=
        if r.bits > 0 ∧ r.key.land mask = n.land mask then
          match last with
          | none => some r
          | some l => if r.bits ≥ l.bits then some r else some l
        else last
      if r.bits = bits ∧ r.key.land mask = n.land mask then
        -- our key
        some (some r)
      else
        let k := bitK64 n bit
        match r.branch k with
        | none => some last1
        | some c => find fuel c n bits (bit - 1) last1
    | true =>
      -- It this our key...!?
      let mask := maskOf r.bits
      if r.key.land mask = n.land mask then some (some r) else some last

/-- Result of the exported Find: notRoot models the not-root panic. -/
inductive FindResult (T : Type) : Type where
  | ok (res : Option (Radix64 T))
  | notRoot
  | nofuel

/-- Go (r *Radix64[T]).Find(n, bits), radix64.go lines 67-73. -/
def Find (fuel : Nat) (r : Radix64 T) (n : Nat) (bits : Int) : FindResult T :=
  if r.pnil = false then .notRoot
  else
    match find fuel r n bits (bitSize32 - 1) none with
    | none => .nofuel
    | some res => .ok res

end Radix64

/-- Go queue64[T] is a slice of nodes tagged with the branch marker
(-1 root, 0 left, 1 right); modelled by a list of pairs. -/
abbrev queue64 (T : Type) : Type := List (Radix64 T × Int)

namespace queue64

variable {T : Type}

/-- Go Push: append at the end. -/
def Push (q : queue64 T) (n : Radix64 T × Int) : queue64 T := q ++ [n]

/-- Go Pop: remove and return the first element; nil when the queue is
empty.  Mutation of the receiver becomes returning the remaining queue. -/
def Pop : queue64 T → Option (Radix64 T × Int) × queue64 T
  | [] => (none, [])
  | x :: xs => (some x, xs)

end queue64

namespace Radix64

variable {T : Type}

/-- Number of nodes of a tree (used as the fuel bound for the Do loop and
as the visit count). -/
def size : Radix64 T → Nat
  | .mk none none _ _ _ _ => 1
  | .mk none (some b) _ _ _ _ => 1 + size b
  | .mk (some a) none _ _ _ _ => 1 + size a
  | .mk (some a) (some b) _ _ _ _ => 1 + size a + size b

/-- Size of an optional child. -/
def osize : Option (Radix64 T) → Nat
  | none => 0
  | some t => t.size

/-- The pushes performed by the body of the Do loop for a dequeued pair
x: for i, b := range x.Radix64.branch { if b != nil { q.Push({b, i}) } }. -/
def childPushes (x : Radix64 T × Int) : List (Radix64 T × Int) :=
  (match x.1.b0 with
    | none => []
    | some b => [(b, 0)]) ++
    (match x.1.b1 with
      | none => []
      | some b => [(b, (1 : Int))])

/-- Go Do loop body, radix64.go lines 79-91, with explicit fuel: pop; if
nil the loop exits; otherwise visit the pair, push the present children
and continue.  The returned list is the sequence of arguments passed to
the visitor callback. -/
def doLoop : Nat → queue64 T → Option (List (Radix64 T × Int))
  | 0, _ => none
  | fuel + 1, q =>
    match queue64.Pop q with
    | (none, _) => some []
    | (some x, q1) =>
      match doLoop fuel (List.foldl queue64.Push q1 (childPushes x)) with
      | none => none
      | some l => some (x :: l)

/-- Go (r *Radix64[T]).Do(f), radix64.go lines 75-92: breadth-first
traversal seeded with (r, -1).  The loop runs size r iterations plus the
final empty pop, so size r + 1 fuel is exact. -/
def Do (r : Radix64 T) : Option (List (Radix64 T × Int)) :=
  doLoop (r.size + 1) (queue64.Push [] (r, -1))

end Radix64

namespace InsertResult

variable {T : Type}

def isOk : InsertResult T → Bool
  | .ok _ _ => true
  | _ => false

def isInvalidBit : InsertResult T → Bool
  | .invalidBit _ => true
  | _ => false

/-- The tree after a successful insert. -/
def tree? : InsertResult T → Option (Radix64 T)
  | .ok t _ => some t
  | _ => none

/-- The node handle a successful Insert returns. -/
def ret? : InsertResult T → Option (Radix64 T)
  | .ok _ ret => some ret
  | _ => none

/-- The tree as left behind by an insert that hit the invalid-bit-index
branch. -/
def afterInvalidBit? : InsertResult T → Option (Radix64 T)
  | .invalidBit t => some t
  | _ => none

end InsertResult

/-- Run a sequence of Insert calls on the root, stopping at the first
failure. -/
def insertAll [Inhabited T] (fuel : Nat) (r : Radix64 T) :
    List (Nat × Int × T) → InsertResult T
  | [] => .ok r r
  | (n, bits, v) :: rest =>
    match Radix64.Insert fuel r n bits v with
    | .ok t _ => insertAll fuel t rest
    | e => e

/-- The entry fields of a node, for readable statements. -/
def entryOf {T : Type} (r : Radix64 T) : Nat × Int × T := (r.key, r.bits, r.value)

/-- Run Find on the root and project the returned node (if any) to its
entry fields; none when Find itself did not return (not root / fuel). -/
def findEntry? (fuel : Nat) (t : Radix64 Nat) (n : Nat) (bits : Int) :
    Option (Option (Nat × Int × Nat)) :=
  match Radix64.Find fuel t n bits with
  | .ok res => some (res.map entryOf)
  | _ => none

/-- Run Remove on the root and project to (entry fields of the removed
copy, tree after the call). -/
def removeRun (fuel : Nat) (t : Radix64 Nat) (n : Nat) (bits : Int) :
    Option (Option (Nat × Int × Nat) × Radix64 Nat) :=
  match Radix64.Remove fuel t n bits with
  | .ok rem t1 => some (rem.map entryOf, t1)
  | _ => none

namespace Radix64

variable {T : Type}

/-- Number of entries (nodes with bits not 0) in a tree. -/
def countEntries : Radix64 T → Nat
  | .mk none none _ _ bi _ => if bi ≠ 0 then 1 else 0
  | .mk none (some b) _ _ bi _ => (if bi ≠ 0 then 1 else 0) + countEntries b
  | .mk (some a) none _ _ bi _ => (if bi ≠ 0 then 1 else 0) + countEntries a
  | .mk (some a) (some b) _ _ bi _ =>
    (if bi ≠ 0 then 1 else 0) + countEntries a + countEntries b

/-- A node in the shape the spec's collapse rule targets: vacant (bits =
0) with exactly one child, and that child a leaf. -/
def vacantSingleLeafChild (r : Radix64 T) : Bool :=
  r.bits == 0 &&
    (match r.b0, r.b1 with
      | some b, none => b.Leaf
      | none, some b => b.Leaf
      | _, _ => false)

/-- Whether some node of the subtree (the subtree root included) is a
vacant single-child node whose child is a leaf. -/
def hasVSLC : Radix64 T → Bool
  | .mk none none p k bi v => vacantSingleLeafChild (.mk none none p k bi v)
  | .mk none (some b) p k bi v =>
    vacantSingleLeafChild (.mk none (some b) p k bi v) || hasVSLC b
  | .mk (some a) none p k bi v =>
    vacantSingleLeafChild (.mk (some a) none p k bi v) || hasVSLC a
  | .mk (some a) (some b) p k bi v =>
    vacantSingleLeafChild (.mk (some a) (some b) p k bi v) || hasVSLC a || hasVSLC b

/-- Claim C7's property violated: some non-root node reachable from the
root is vacant with exactly one child, that child a leaf (the spec's
collapse rule applies to it, so the tree is not compact). -/
def compactionViolation (root : Radix64 T) : Bool :=
  (match root.b0 with
    | none => false
    | some a => hasVSLC a) ||
    (match root.b1 with
      | none => false
      | some b => hasVSLC b)

end Radix64

/-- The keys k * 2^32 for k < m, each inserted with 64 significant bits:
pairwise distinct uint64 keys that agree on all bits the 32-bit-wide
descent of radix64.go ever examines. -/
def chainInput (m : Nat) : List (Nat × Int × Nat) :=
  (List.range m).map fun k => (k * 2 ^ 32, (64 : Int), k)

/-- Total size of the trees held in a queue: the number of loop
iterations the Do loop still has to run. -/
def qsize {T : Type} : queue64 T → Nat
  | [] => 0
  | x :: xs => x.1.size + qsize xs

theorem qsize_append {T : Type} (a b : queue64 T) :
    qsize (a ++ b) = qsize a + qsize b := by
  induction a with
  | nil => simp [qsize]
  | cons x xs ih => simp [qsize, ih]; omega

theorem foldl_push {T : Type} (l : List (Radix64 T × Int)) (q : queue64 T) :
    List.foldl queue64.Push q l = q ++ l := by
  induction l generalizing q with
  | nil => simp
  | cons x xs ih => rw [List.foldl_cons, ih]; simp [queue64.Push]

theorem size_eq {T : Type} (t : Radix64 T) :
    t.size = 1 + Radix64.osize t.b0 + Radix64.osize t.b1 := by
  match t with
  | .mk a b p k bi v =>
    cases a <;> cases b <;>
      simp [Radix64.size, Radix64.osize, Radix64.b0, Radix64.b1]

theorem qsize_childPushes {T : Type} (x : Radix64 T × Int) :
    qsize (Radix64.childPushes x) =
      Radix64.osize x.1.b0 + Radix64.osize x.1.b1 := by
  match x with
  | (t, i) =>
    cases t with
    | mk a b p k bi v =>
      cases a <;> cases b <;>
        simp [Radix64.childPushes, qsize, Radix64.osize, Radix64.b0, Radix64.b1]

/-- The Do loop, given fuel exceeding the total size of the queued trees,
exits through the empty-pop branch after visiting each queued node
exactly once. -/
theorem doLoop_complete {T : Type} :
    ∀ (fuel : Nat) (q : queue64 T), qsize q < fuel →
      ∃ l, Radix64.doLoop fuel q = some l ∧ l.length = qsize q := by
  intro fuel
  induction fuel with
  | zero => intro q h; omega
  | succ fuel ih =>
    intro q h
    match q with
    | [] =>
      refine ⟨[], ?_, ?_⟩
      · simp [Radix64.doLoop, queue64.Pop]
      · simp [qsize]
    | x :: xs =>
      have hx := size_eq x.1
      have h1 : qsize (List.foldl queue64.Push xs (Radix64.childPushes x)) < fuel := by
        rw [foldl_push, qsize_append, qsize_childPushes]
        simp [qsize] at h
        omega
      obtain ⟨l, hl, hlen⟩ := ih _ h1
      refine ⟨x :: l, ?_, ?_⟩
      · simp [Radix64.doLoop, queue64.Pop, hl]
      · rw [foldl_push, qsize_append, qsize_childPushes] at hlen
        simp [qsize, List.length_cons, hlen]
        omega

/-- Claim C1.  The insert/find round trip fails: after Insert(0, 1, 10)
and Insert(1, 1, 20) on a fresh Radix64 trie, Find(1, 1) returns the node
holding key 0, bits 1 and value 10 - the entry of the first insert, not
the one just inserted - because radix64.go descends from bit bitSize32 -
1 = 31 instead of 63 and compares keys under masks computed with
bitSize32, under which the distinct uint64 keys 0 and 1 collide.  The
claim requires value 20. -/
theorem C1_insert_find_roundtrip_fails :
    ((insertAll 200 (New64 Nat) [(0, 1, 10), (1, 1, 20)]).tree?.bind
        fun t => findEntry? 200 t 1 1) =
      some (some (0, 1, 10)) := by rfl

/-- Claim C2.  Inserting the 33 keys k * 2^32 (k < 33), each with bits =
64 in [0, 64], makes the internal bit index go negative: the first 32
inserts succeed and build a chain of depth 32 (the 32-bit-wide descent
never distinguishes these keys), and the 33rd insert reaches a populated
leaf with bit = -1 and takes the InvalidBitIndexError branch. -/
theorem C2_insert_bit_index_goes_negative :
    (insertAll 200 (New64 Nat) (chainInput 32)).isOk = true ∧
      (insertAll 200 (New64 Nat) (chainInput 33)).isInvalidBit = true := by
  exact ⟨by rfl, by rfl⟩

/-- Claim C3.  Find is not longest-prefix match: with the single entry
(key 0x80, bits 1, value 1) stored - whose 1-bit prefix 0 matches the
query key 0x81 - Find(0x81, 8) returns the vacant pre-materialized leaf
(key 0, bits 0, value 0) instead of that matching entry, because the leaf
branch of find returns any leaf whose masked key matches, vacant leaves
included, without consulting the running best candidate. -/
theorem C3_find_not_longest_prefix_match :
    ((insertAll 200 (New64 Nat) [(0x80, 1, 1)]).tree?.bind
        fun t => findEntry? 200 t 0x81 8) =
      some (some (0, 0, 0)) := by rfl

/-- Claim C4.  The not-root check does not reject every non-root handle:
Insert(0, 64, 7) on a fresh trie stores the entry in the root's
pre-materialized left child and returns that handle; New64 built it with
a nil parent pointer (pnil = true), so Find and Insert invoked on this
non-root handle do not fail with NotRootError but silently operate on its
subtree. -/
theorem C4_nonroot_handle_not_rejected :
    ((Radix64.Insert 200 (New64 Nat) 0 64 7).ret?.map
        fun h => (h.pnil, h.key, h.bits, h.value)) = some (true, 0, 64, 7) ∧
      ((Radix64.Insert 200 (New64 Nat) 0 64 7).ret?.bind
        fun h => findEntry? 200 h 0 64) = some (some (0, 64, 7)) ∧
      ((Radix64.Insert 200 (New64 Nat) 0 64 7).ret?.map
        fun h => (Radix64.Insert 200 h 5 64 9).isOk) = some true := by
  exact ⟨by rfl, by rfl, by rfl⟩

/-- Claim C5.  Find returns a vacant node: on a fresh trie holding no
entry at all, Find(5, 8) returns the vacant pre-materialized left child
(key 0, bits 0, value 0) rather than none, because a vacant leaf's masked
key (mask over bits 63..32) matches any query key below 2^32. -/
theorem C5_find_returns_vacant_node :
    findEntry? 200 (New64 Nat) 5 8 = some (some (0, 0, 0)) := by rfl

/-- Claim C6.  Re-inserting the same (key, bits) pair does not overwrite
in place: after Insert(0, 1, 10) and Insert(0, 1, 20) the tree holds two
entries (the non-leaf insert case never compares the stored key for
equality), and Find(0, 1) still returns the stale value 10. -/
theorem C6_reinsert_duplicates_entry :
    ((insertAll 200 (New64 Nat) [(0, 1, 10), (0, 1, 20)]).tree?.map
        fun t => (t.countEntries, findEntry? 200 t 0 1)) =
      some (2, some (some (0, 1, 10))) := by rfl

/-- Claim C7.  Compaction fails: after Insert(0, 2, 2), Insert(1, 64, 3)
and a successful Remove(0, 2) (which returns the removed entry), the
root's left child is a vacant non-root node with exactly one child, and
that child is a leaf - precisely the shape the collapse rule should have
pruned.  The hit node is the root's pre-materialized child, whose parent
pointer New64 left nil, so prune treats it as the root and only clears it
in place instead of detaching and collapsing. -/
theorem C7_compaction_violated_after_remove :
    ((insertAll 200 (New64 Nat) [(0, 2, 2), (1, 64, 3)]).tree?.bind
        fun t => (removeRun 200 t 0 2).map
          fun p => (p.1, p.2.compactionViolation)) =
      some (some (0, 2, 2), true) := by rfl

/-- Claim C8.  A failed Insert mutates the tree: on the depth-32 chain
built from chainInput 32, Insert(1, 2, 99) first displaces the entry (0,
64, 0) out of the root's left child (writing (1, 2, 99) there) and then
hits the InvalidBitIndexError branch while re-inserting the displaced
entry, so the state observable after the failed call differs from the
state before it. -/
theorem C8_failed_insert_mutates_tree :
    ((insertAll 200 (New64 Nat) (chainInput 32)).tree?.map fun t =>
        ((t.branch 0).map entryOf,
          (Radix64.Insert 200 t 1 2 99).afterInvalidBit?.bind
            fun t1 => (t1.branch 0).map entryOf)) =
      some (some (0, 64, 0), some (1, 2, 99)) := by rfl

/-- Claim C9.  Removing a pair that is not stored neither returns "not
found" nor leaves the tree unchanged: with only (key 0, bits 64, value 5)
stored, Remove(2^63, 64) - whose key differs from 0 in its top bit -
returns a removed copy of that entry and clears the node holding it,
because for bits = 64 the Go mask expression uint64(mask64 << (bitSize32
- uint(bits))) over-shifts to 0 and every key matches. -/
theorem C9_remove_absent_pair_mutates_tree :
    ((insertAll 200 (New64 Nat) [(0, 64, 5)]).tree?.bind fun t =>
        (removeRun 200 t (2 ^ 63) 64).map
          fun p => (p.1, (p.2.branch 0).map entryOf)) =
      some (some (0, 64, 5), some (0, 0, 0)) := by rfl

/-- Claim C10.  The breadth-first traversal Do terminates on every finite
trie: with fuel size + 1 (one iteration per node plus the final pop of
the empty queue, which returns none and exits the loop), the loop
completes and the visitor is called exactly once per node of the tree. -/
theorem C10_do_terminates_visits_once (t : Radix64 Nat) :
    ∃ l, Radix64.Do t = some l ∧ l.length = t.size := by
  have h : qsize [((t : Radix64 Nat), (-1 : Int))] < t.size + 1 := by
    simp [qsize]
  obtain ⟨l, hl, hlen⟩ := doLoop_complete (t.size + 1) [(t, -1)] h
  refine ⟨l, ?_, ?_⟩
  · simpa [Radix64.Do, queue64.Push] using hl
  · simpa [qsize] using hlen

end Bitradix
